import Mathlib

/-!
A verification development for a small offline ray tracer.

The Rust sources are shallowly embedded here:
* `f64` values are modelled by real numbers `ℝ` (a separate model `Fl`
  with an explicit NaN value is used where NaN behaviour matters);
* `nalgebra::Vector4<f64>` is `Vec4 := Fin 4 → ℝ`;
* `nalgebra::Matrix4<f64>` is `Mat4 := Matrix (Fin 4) (Fin 4) ℝ`;
* fallible operations return `Option` / `Except`;
* `Rc<RefCell<dyn Drawable>>` handles are modelled by stable identifiers
  paired with the behaviour the caller uses.
-/

namespace RayTracer

/-- Embeds `src/math/utils.rs`: `pub const EPSILON: f64 = 0.0001`. -/
noncomputable def EPSILON : ℝ := 1 / 10000

/-- The 4-component homogeneous vector type (`nalgebra::Vector4<f64>`). -/
abbrev Vec4 := Fin 4 → ℝ

/-- The 4×4 matrix type (`nalgebra::Matrix4<f64>`). -/
abbrev Mat4 := Matrix (Fin 4) (Fin 4) ℝ

/-- Embeds `utils::tuple`: builds a `Vector::new(x, y, z, w)`. -/
def tuple (x y z w : ℝ) : Vec4 := ![x, y, z, w]

/-- Embeds `utils::point`: a tuple with `w = 1.0`. -/
def point (x y z : ℝ) : Vec4 := tuple x y z 1

/-- Embeds `utils::vector`: a tuple with `w = 0.0`. -/
def vector (x y z : ℝ) : Vec4 := tuple x y z 0

/-- Embeds `utils::dot`: the `nalgebra` 4-component dot product `a.dot(&b)`. -/
def dot (a b : Vec4) : ℝ := a 0 * b 0 + a 1 * b 1 + a 2 * b 2 + a 3 * b 3

/-- Embeds the `nalgebra` `Vector4::magnitude()` / `norm()`: the Euclidean norm over
all four components. -/
noncomputable def norm4 (v : Vec4) : ℝ := Real.sqrt (dot v v)

/-- Embeds the `nalgebra` `Vector4::normalize()`: divide the vector by its norm. -/
noncomputable def normalize (v : Vec4) : Vec4 := (norm4 v)⁻¹ • v

/-- Embeds `utils::reflect`: `v - 2.0 * n * dot(n, v)`. -/
def reflect (v n : Vec4) : Vec4 := v - (2 * dot n v) • n

/-- Embeds `src/math/mod.rs`: `struct Color { r, g, b : f64 }`. -/
structure Color where
  r : ℝ
  g : ℝ
  b : ℝ

/-- Embeds `Color::new`. -/
def Color.new (r g b : ℝ) : Color := ⟨r, g, b⟩

/-- Embeds `impl Add<Color> for Color`: component-wise addition. -/
def Color.add (a c : Color) : Color := ⟨a.r + c.r, a.g + c.g, a.b + c.b⟩

/-- Embeds `impl Mul<f64> for Color`: scale every channel. -/
def Color.smul (c : Color) (k : ℝ) : Color := ⟨c.r * k, c.g * k, c.b * k⟩

/-- Embeds `impl Mul<Color> for Color`: the Schur (component-wise) product. -/
def Color.schur (a c : Color) : Color := ⟨a.r * c.r, a.g * c.g, a.b * c.b⟩

/-- Embeds `Color::black()`: the default color `(0, 0, 0)`. -/
def Color.black : Color := ⟨0, 0, 0⟩

/-- Embeds `Color::cvt`: converts a channel value to the integer range `0..=255`
for PPM serialization.  the Rust `f64::round` rounds half away from zero,
which on the non-negative values reaching the final branch agrees with
`round` (half up). -/
noncomputable def Color.cvt (val : ℝ) : ℤ :=
  if val > 1 then 255
  else if val < 0 then 0
  else round (val * 255)

/-- Embeds `src/render/core.rs`: `struct Material` (Phong reflection model). -/
structure Material where
  color : Color
  ambient : ℝ
  diffuse : ℝ
  specular : ℝ
  shininess : ℝ

/-- Embeds `src/render/core.rs`: `struct PointLight { pos, int }`. -/
structure PointLight where
  pos : Vec4
  int : Color

/-- Embeds `PointLight::shade`: the Phong shading function.  A faithful port of
the Rust body: effective color, light direction, ambient term, the
shadow early return, then diffuse and specular terms. -/
noncomputable def PointLight.shade (light : PointLight) (m : Material)
    (p e n : Vec4) (shadowed : Bool) : Color :=
  let effCol := light.int.schur m.color
  let l := normalize (light.pos - p)
  let ambient := effCol.smul m.ambient
  if shadowed then ambient
  else
    let ldn := dot l n
    let ds : Color × Color :=
      if ldn < 0 then (Color.black, Color.black)
      else
        let diffuse := (effCol.smul m.diffuse).smul ldn
        let r := reflect (-l) n
        let rde := dot r e
        let specular :=
          if rde ≤ 0 then Color.black
          else (light.int.smul m.specular).smul (rde ^ m.shininess)
        (diffuse, specular)
    (ambient.add ds.2).add ds.1

/-- Embeds `src/render/core.rs`: `struct Ray { origin, direction }`. -/
structure Ray where
  origin : Vec4
  direction : Vec4

/-- Embeds `Ray::pos`: `origin + direction * t`. -/
def Ray.pos (r : Ray) (t : ℝ) : Vec4 := r.origin + t • r.direction

/-- Embeds `src/render/shapes.rs`: `struct Sphere { shape, c, r }`.  The `shape`
base (transformation and material) is not used by `local_intersect` and is
omitted here. -/
structure Sphere where
  c : Vec4
  r : ℝ

/-- Embeds `Sphere::local_intersect`, ported verbatim: note that the source
computes `a = dot(&del, &del) - self.r`, subtracting the radius itself
rather than its square. -/
noncomputable def Sphere.localIntersect (s : Sphere) (objR : Ray) : List ℝ :=
  let del := objR.origin - s.c
  let a := dot del del - s.r
  let b := dot objR.direction del
  let c := dot objR.direction objR.direction
  let d := b * b - a * c
  if d ≥ 0 then [(-b + Real.sqrt d) / c, (-b - Real.sqrt d) / c]
  else []

/-- The same intersection routine with `a = dot(del, del) − r²`, exactly as
the specification words it; kept separate so the divergence from
`Sphere.localIntersect` can be exhibited. -/
noncomputable def Sphere.localIntersectRSquared (s : Sphere) (objR : Ray) : List ℝ :=
  let del := objR.origin - s.c
  let a := dot del del - s.r ^ 2
  let b := dot objR.direction del
  let c := dot objR.direction objR.direction
  let d := b * b - a * c
  if d ≥ 0 then [(-b + Real.sqrt d) / c, (-b - Real.sqrt d) / c]
  else []

/-- Embeds `Plane::local_intersect`: no intersection when `|direction.y| < EPSILON`,
otherwise the single root `t = -origin.y / direction.y`. -/
noncomputable def Plane.localIntersect (objR : Ray) : List ℝ :=
  if |objR.direction 1| < EPSILON then []
  else [-objR.origin 1 / objR.direction 1]

/-- Embeds `src/math/mod.rs`: `enum TUnit`, the primitive transform units. -/
inductive TUnit where
  | Translate (dx dy dz : ℝ)
  | Scale (fx fy fz : ℝ)
  | RotateX (angle : ℝ)
  | RotateY (angle : ℝ)
  | RotateZ (angle : ℝ)
  | Shear (xy xz yx yz zx zy : ℝ)
  | None

/-- Embeds `TUnit::translate_matrix`: identity with column 3 set to `(dx,dy,dz,1)`. -/
def translateMatrix (dx dy dz : ℝ) : Mat4 :=
  Matrix.of ![![1, 0, 0, dx], ![0, 1, 0, dy], ![0, 0, 1, dz], ![0, 0, 0, 1]]

/-- Embeds `TUnit::scale_matrix`: identity with diagonal `(fx,fy,fz,1)`. -/
def scaleMatrix (fx fy fz : ℝ) : Mat4 :=
  Matrix.of ![![fx, 0, 0, 0], ![0, fy, 0, 0], ![0, 0, fz, 0], ![0, 0, 0, 1]]

/-- Embeds `TUnit::rotate_x_matrix`: identity with columns 1 and 2 replaced by
`(0,cos,sin,0)` and `(0,−sin,cos,0)`. -/
noncomputable def rotateXMatrix (angle : ℝ) : Mat4 :=
  Matrix.of ![![1, 0, 0, 0],
              ![0, Real.cos angle, -Real.sin angle, 0],
              ![0, Real.sin angle, Real.cos angle, 0],
              ![0, 0, 0, 1]]

/-- Embeds `TUnit::rotate_y_matrix`: identity with columns 0 and 2 replaced by
`(cos,0,−sin,0)` and `(sin,0,cos,0)`. -/
noncomputable def rotateYMatrix (angle : ℝ) : Mat4 :=
  Matrix.of ![![Real.cos angle, 0, Real.sin angle, 0],
              ![0, 1, 0, 0],
              ![-Real.sin angle, 0, Real.cos angle, 0],
              ![0, 0, 0, 1]]

/-- Embeds `TUnit::rotate_z_matrix`: identity with columns 0 and 1 replaced by
`(cos,sin,0,0)` and `(−sin,cos,0,0)`. -/
noncomputable def rotateZMatrix (angle : ℝ) : Mat4 :=
  Matrix.of ![![Real.cos angle, -Real.sin angle, 0, 0],
              ![Real.sin angle, Real.cos angle, 0, 0],
              ![0, 0, 1, 0],
              ![0, 0, 0, 1]]

/-- Embeds `TUnit::shear_matrix`: identity with columns 0, 1, 2 replaced by
`(1,yx,zx,0)`, `(xy,1,zy,0)`, `(xz,yz,1,0)`. -/
def shearMatrix (xy xz yx yz zx zy : ℝ) : Mat4 :=
  Matrix.of ![![1, xy, xz, 0], ![yx, 1, yz, 0], ![zx, zy, 1, 0], ![0, 0, 0, 1]]

/-- Embeds `TUnit::matrix`: the matrix form of a transform unit. -/
noncomputable def TUnit.matrix : TUnit → Mat4
  | .None => 1
  | .Translate dx dy dz => translateMatrix dx dy dz
  | .Scale fx fy fz => scaleMatrix fx fy fz
  | .RotateX angle => rotateXMatrix angle
  | .RotateY angle => rotateYMatrix angle
  | .RotateZ angle => rotateZMatrix angle
  | .Shear xy xz yx yz zx zy => shearMatrix xy xz yx yz zx zy

/-- Embeds `src/math/mod.rs`: `struct Transformation { set, matrix }` — an
ordered list of transform units together with the cached composed matrix. -/
structure Transformation where
  set : List TUnit
  matrix : Mat4

/-- Embeds `Transformation::default()`: empty set, identity matrix. -/
def Transformation.dflt : Transformation := ⟨[], 1⟩

/-- Embeds `Transformation::add`: push the unit and adjust the cache by one step,
`matrix = unit.matrix() * matrix` (the loop in `adjust_matrix` runs over
exactly the one new element). -/
noncomputable def Transformation.add (t : Transformation) (u : TUnit) : Transformation :=
  ⟨t.set ++ [u], u.matrix * t.matrix⟩

/-- Embeds `impl Mul<Vector> for &Transformation`: multiply the cached matrix
with the vector. -/
noncomputable def Transformation.applyVec (t : Transformation) (v : Vec4) : Vec4 :=
  t.matrix.mulVec v

/-- Embeds the `nalgebra` `Matrix4::try_inverse` as used by
`Transformation::inverse`: `None` exactly when the matrix is singular. -/
noncomputable def tryInverse (m : Mat4) : Option Mat4 :=
  if m.det = 0 then none else some m⁻¹

/-- Embeds `src/render/core.rs`: `struct I { t, obj }` — one intersection.  The
`Rc<RefCell<dyn Drawable>>` reference is modelled by a stable object
identifier. -/
structure I where
  t : ℝ
  obj : ℕ

/-- Embeds `Is::hit`: walk the (sorted) list, skip every negative `t`, return the
first remaining intersection. -/
noncomputable def hit : List I → Option I
  | [] => none
  | i :: rest => if i.t < 0 then hit rest else some i

/-- One insertion step of the stable sort behind `Is::sort`, specialised
to NaN-free `t`-values: `x` is placed before the first element that is not
strictly below it (`partial_cmp ≠ Greater`). -/
noncomputable def insertI (x : I) : List I → List I
  | [] => [x]
  | y :: ys => if y.t < x.t then y :: insertI x ys else x :: y :: ys

/-- Embeds `Is::sort` on NaN-free data: a stable sort ascending by `t`. -/
noncomputable def sortI : List I → List I
  | [] => []
  | x :: xs => insertI x (sortI xs)

/-- Embeds `Is::create`: pair every t-value with the same object reference. -/
def Is.create (ts : List ℝ) (obj : ℕ) : List I := ts.map fun t => ⟨t, obj⟩

/-- Embeds `src/render/mod.rs`: `struct World`.  A `Drawable` object is modelled
by its identifier together with its world-space `intersect` behaviour (a
function from rays to t-values); the `points` decoration list is not used
by the claims and is omitted. -/
structure World where
  objects : List (ℕ × (Ray → List ℝ))
  sources : List PointLight

/-- Embeds `World::intersect`: collect `Is::create(obj.intersect(ray), obj)` for
every object in order, concatenate, and sort once at the end. -/
noncomputable def World.intersect (w : World) (r : Ray) : List I :=
  sortI ((w.objects.map fun ob => Is.create (ob.2 r) ob.1).flatten)

/-- Embeds `World::is_shadowed`: panics (modelled as `none`) unless there is
exactly one light source; otherwise computes the distance to the light,
casts a normalized ray from the point toward the light, and compares the
t-value of the hit against the distance with an epsilon-relaxed comparison. -/
noncomputable def World.isShadowed (w : World) (p : Vec4) : Option Bool :=
  match w.sources with
  | [src] =>
      let v := src.pos - p
      let dist := norm4 v
      let r : Ray := ⟨p, normalize v⟩
      let xs := w.intersect r
      match hit xs with
      | some i => if i.t - dist < -(EPSILON / 2) then some true else some false
      | none => some false
  | _ => none

/-- Embeds `src/render/mod.rs`: `struct Canvas { width, height, bg, grid }`,
row-major. -/
structure Canvas where
  width : ℕ
  height : ℕ
  bg : Color
  grid : List Color

/-- Embeds `Canvas::cc`: convert `(x, y)` to the flat index `width * y + x`. -/
def Canvas.cc (cv : Canvas) (x y : ℕ) : ℕ := cv.width * y + x

/-- Embeds `Canvas::write`: out-of-bounds coordinates produce an error and leave
the canvas untouched; otherwise the pixel at `(x, y)` is overwritten. -/
def Canvas.write (cv : Canvas) (x y : ℕ) (val : Color) : Except String Canvas :=
  if x ≥ cv.width ∨ y ≥ cv.height then
    Except.error "Canvas.write(): pixel out of bounds"
  else
    Except.ok { cv with grid := cv.grid.set (cv.cc x y) val }

/-- A model of `f64` that keeps an explicit NaN value, used where the
behaviour of `Is::sort` on NaN t-values is at stake. -/
inductive Fl where
  | nan
  | val (x : ℝ)

/-- Embeds `f64::partial_cmp`: `None` when either operand is NaN, otherwise the
order of the underlying reals. -/
noncomputable def Fl.partialCmp : Fl → Fl → Option Ordering
  | .nan, _ => none
  | .val _, .nan => none
  | .val a, .val b =>
      some (if a < b then Ordering.lt else if b < a then Ordering.gt else Ordering.eq)

/-- An intersection whose t-value may be NaN. -/
structure FI where
  t : Fl
  obj : ℕ

/-- The comparator of `Is::sort`:
`a.t.partial_cmp(&b.t).unwrap_or(Ordering::Equal)`. -/
noncomputable def cmpFI (a b : FI) : Ordering := (Fl.partialCmp a.t b.t).getD Ordering.eq

/-- One insertion step of the stable sort: `x` goes before the first
element `y` with `cmpFI x y ≠ Greater`. -/
noncomputable def insertFI (x : FI) : List FI → List FI
  | [] => [x]
  | y :: ys => if cmpFI x y = Ordering.gt then y :: insertFI x ys else x :: y :: ys

/-- Embeds `Is::sort` with NaN-aware t-values, modelled as the stable insertion
sort driven by `cmpFI` (the Rust `sort_by` is stable, and uses exactly this
insertion behaviour on small slices). -/
noncomputable def sortFI : List FI → List FI
  | [] => []
  | x :: xs => insertFI x (sortFI xs)

/-- Ascending-by-t: the order the specification expects of a sorted
intersection list; NaN is incomparable, so only real pairs constrain it. -/
def Fl.le (a b : Fl) : Prop :=
  match a, b with
  | .val x, .val y => x ≤ y
  | _, _ => True

/-- A list of intersections is ascending by t when every pair in order
satisfies `Fl.le`. -/
def AscendingByT (xs : List FI) : Prop := xs.Pairwise fun a b => Fl.le a.t b.t

/-- C3: a Transformation built by adding units A, B, C in that order caches
the matrix `C.matrix * B.matrix * A.matrix`; applying it to a vector applies
A first, then B, then C; and every `add` updates the cache as
`new_unit_matrix * old_cache`. -/
theorem transformation_applies_in_addition_order (A B C : TUnit) (v : Vec4) :
    (((Transformation.dflt.add A).add B).add C).matrix
        = C.matrix * B.matrix * A.matrix
    ∧ (((Transformation.dflt.add A).add B).add C).applyVec v
        = C.matrix.mulVec (B.matrix.mulVec (A.matrix.mulVec v))
    ∧ ∀ (t : Transformation) (u : TUnit), (t.add u).matrix = u.matrix * t.matrix := by
  refine ⟨?_, ?_, fun t u => rfl⟩
  · simp [Transformation.add, Transformation.dflt, mul_assoc]
  · simp [Transformation.applyVec, Transformation.add, Transformation.dflt, mul_assoc]

/-- C4: with `shadowed = true`, `PointLight::shade` returns exactly the
ambient term — the light intensity Schur-multiplied with the material
color, scaled by the ambient coefficient — whatever the geometry. -/
theorem shade_shadowed_is_ambient_only (light : PointLight) (m : Material)
    (p e n : Vec4) :
    light.shade m p e n true = (light.int.schur m.color).smul m.ambient := by
  simp [PointLight.shade]

/-- C5: `Plane::local_intersect` returns no t-values when
`|direction.y| < EPSILON` — including coplanar rays, whatever the origin —
and otherwise exactly the single value `-origin.y / direction.y`, which
lies on the plane; the ray from (0,1,0) with direction (0,−1,0) meets the
plane exactly at t = 1. -/
theorem plane_local_intersect_spec (r : Ray) :
    (|r.direction 1| < EPSILON → Plane.localIntersect r = [])
    ∧ (¬ |r.direction 1| < EPSILON →
        Plane.localIntersect r = [-r.origin 1 / r.direction 1]
        ∧ ∀ t ∈ Plane.localIntersect r, (r.pos t) 1 = 0)
    ∧ Plane.localIntersect ⟨point 0 1 0, vector 0 (-1) 0⟩ = [1] := by
  refine ⟨fun h => by simp [Plane.localIntersect, h], fun h => ⟨?_, ?_⟩, ?_⟩
  · simp [Plane.localIntersect, h]
  · have hd : r.direction 1 ≠ 0 := by
      intro h0
      exact h (by simp [h0, EPSILON])
    intro t ht
    simp [Plane.localIntersect, h] at ht
    subst ht
    simp [Ray.pos]
    field_simp
  · norm_num [Plane.localIntersect, point, vector, tuple, EPSILON]

/-- Witness for C5 at concrete rays: a coplanar ray parallel to the plane
(origin inside the plane) yields no intersection. -/
theorem plane_local_intersect_witness :
    |((vector 1 0 0 : Vec4)) 1| < EPSILON
    ∧ Plane.localIntersect ⟨point 0 0 0, vector 1 0 0⟩ = [] := by
  have h : |((vector 1 0 0 : Vec4)) 1| < EPSILON := by
    norm_num [vector, tuple, EPSILON]
  exact ⟨h, (plane_local_intersect_spec ⟨point 0 0 0, vector 1 0 0⟩).1 h⟩

/-- C9: channel conversion clamps values above 1 to 255 and below 0 to 0,
rounds `value * 255` otherwise, and always lands in `0..=255`. -/
theorem cvt_clamps_and_rounds (v : ℝ) :
    (1 < v → Color.cvt v = 255)
    ∧ (v < 0 → Color.cvt v = 0)
    ∧ (0 ≤ v → v ≤ 1 → Color.cvt v = round (v * 255))
    ∧ 0 ≤ Color.cvt v ∧ Color.cvt v ≤ 255 := by
  refine ⟨fun h => by simp [Color.cvt, h], fun h => ?_, fun h0 h1 => ?_, ?_⟩
  · have h1 : ¬ v > 1 := by linarith
    simp [Color.cvt, h, h1]
  · have hgt : ¬ v > 1 := by linarith
    have hlt : ¬ v < 0 := by linarith
    simp [Color.cvt, hgt, hlt]
  · by_cases hgt : v > 1
    · simp [Color.cvt, hgt]
    · by_cases hlt : v < 0
      · simp [Color.cvt, hgt, hlt]
      · have h0 : (0:ℝ) ≤ v := by linarith
        have h1 : v ≤ 1 := by linarith
        have hl : (0:ℤ) ≤ round (v * 255) := by
          rw [round_eq]
          have : (0:ℝ) ≤ v * 255 + 1 / 2 := by nlinarith
          exact Int.floor_nonneg.mpr this
        have hu : round (v * 255) ≤ 255 := by
          rw [round_eq]
          have : v * 255 + 1 / 2 < (255:ℤ) + 1 := by push_cast; nlinarith
          exact Int.floor_le_iff.mpr this
        simp [Color.cvt, hgt, hlt]
        exact ⟨hl, hu⟩

/-- Witness for C9 at concrete channel values 2, −1 and 1/2. -/
theorem cvt_witness :
    Color.cvt 2 = 255 ∧ Color.cvt (-1) = 0
    ∧ Color.cvt (1 / 2) = round ((1 / 2 : ℝ) * 255)
    ∧ 0 ≤ Color.cvt (1 / 2) ∧ Color.cvt (1 / 2) ≤ 255 :=
  ⟨(cvt_clamps_and_rounds 2).1 (by norm_num),
   (cvt_clamps_and_rounds (-1)).2.1 (by norm_num),
   (cvt_clamps_and_rounds (1 / 2)).2.2.1 (by norm_num) (by norm_num),
   (cvt_clamps_and_rounds (1 / 2)).2.2.2⟩

/-- C10: `Canvas::write` errors on out-of-bounds coordinates; in bounds it
succeeds and changes only the pixel at `(x, y)`, preserving the
dimensions, the background, the buffer length, and every other in-bounds
pixel. -/
theorem canvas_write_in_bounds_only (cv : Canvas) (x y : ℕ) (val : Color) :
    ((cv.width ≤ x ∨ cv.height ≤ y) →
      cv.write x y val = Except.error "Canvas.write(): pixel out of bounds")
    ∧ (x < cv.width → y < cv.height →
      ∃ cv2, cv.write x y val = Except.ok cv2
        ∧ cv2.width = cv.width ∧ cv2.height = cv.height ∧ cv2.bg = cv.bg
        ∧ cv2.grid.length = cv.grid.length
        ∧ (cv.grid.length = cv.width * cv.height →
            cv2.grid[cv.cc x y]? = some val)
        ∧ ∀ x2 y2, x2 < cv.width → y2 < cv.height → (x2, y2) ≠ (x, y) →
            cv2.grid[cv.cc x2 y2]? = cv.grid[cv.cc x2 y2]?) := by
  constructor
  · intro h
    rw [Canvas.write, if_pos h]
  · intro hx hy
    have hcond : ¬ (x ≥ cv.width ∨ y ≥ cv.height) := by omega
    refine ⟨{ cv with grid := cv.grid.set (cv.cc x y) val },
      by rw [Canvas.write, if_neg hcond], rfl, rfl, rfl, List.length_set .., ?_, ?_⟩
    · intro hlen
      apply List.getElem?_set_self
      have hexp : cv.width * (y + 1) = cv.width * y + cv.width := by ring
      have hmul : cv.width * (y + 1) ≤ cv.width * cv.height :=
        Nat.mul_le_mul_left _ hy
      unfold Canvas.cc
      omega
    · intro x2 y2 hx2 hy2 hne
      apply List.getElem?_set_ne
      intro heq
      unfold Canvas.cc at heq
      have hw : 0 < cv.width := by omega
      have e1 : (cv.width * y + x) % cv.width = x := by
        rw [Nat.mul_add_mod]
        exact Nat.mod_eq_of_lt hx
      have e2 : (cv.width * y2 + x2) % cv.width = x2 := by
        rw [Nat.mul_add_mod]
        exact Nat.mod_eq_of_lt hx2
      have d1 : (cv.width * y + x) / cv.width = y := by
        rw [Nat.mul_add_div hw, Nat.div_eq_of_lt hx, Nat.add_zero]
      have d2 : (cv.width * y2 + x2) / cv.width = y2 := by
        rw [Nat.mul_add_div hw, Nat.div_eq_of_lt hx2, Nat.add_zero]
      apply hne
      rw [heq] at e1 d1
      rw [e1] at e2
      rw [d1] at d2
      rw [e2, d2]

/-- Witness for C10: a 2×2 canvas; writing at (1, 0) succeeds and writing
at (2, 0) is out of bounds. -/
theorem canvas_write_witness :
    (Canvas.write ⟨2, 2, Color.black, [Color.black, Color.black, Color.black, Color.black]⟩
        2 0 Color.black = Except.error "Canvas.write(): pixel out of bounds")
    ∧ (∃ cv2,
        Canvas.write ⟨2, 2, Color.black, [Color.black, Color.black, Color.black, Color.black]⟩
            1 0 (Color.new 1 0 0) = Except.ok cv2
        ∧ cv2.width = 2 ∧ cv2.height = 2 ∧ cv2.bg = Color.black
        ∧ cv2.grid.length =
            ([Color.black, Color.black, Color.black, Color.black] : List Color).length
        ∧ (([Color.black, Color.black, Color.black, Color.black] : List Color).length = 2 * 2 →
            cv2.grid[Canvas.cc ⟨2, 2, Color.black,
              [Color.black, Color.black, Color.black, Color.black]⟩ 1 0]?
              = some (Color.new 1 0 0))
        ∧ ∀ x2 y2, x2 < 2 → y2 < 2 → (x2, y2) ≠ (1, 0) →
            cv2.grid[Canvas.cc ⟨2, 2, Color.black,
              [Color.black, Color.black, Color.black, Color.black]⟩ x2 y2]?
              = ([Color.black, Color.black, Color.black, Color.black] :
                  List Color)[Canvas.cc ⟨2, 2, Color.black,
                    [Color.black, Color.black, Color.black, Color.black]⟩ x2 y2]?) :=
  ⟨(canvas_write_in_bounds_only _ 2 0 Color.black).1 (by left; decide),
   (canvas_write_in_bounds_only _ 1 0 (Color.new 1 0 0)).2 (by decide) (by decide)⟩

/-- C2: on a list sorted ascending by t, `hit` returns `none` exactly when
the list is empty or every t is negative; a returned intersection has the
smallest non-negative t, and it is the first such element of the list (all
elements before it are negative, so ties resolve to the earliest). -/
theorem hit_smallest_nonneg (xs : List I)
    (hs : List.Sorted (fun a b : I => a.t ≤ b.t) xs) :
    (hit xs = none ↔ ∀ i ∈ xs, i.t < 0)
    ∧ ∀ i, hit xs = some i →
        (0 ≤ i.t ∧ (∀ j ∈ xs, 0 ≤ j.t → i.t ≤ j.t)
         ∧ ∃ pre post, xs = pre ++ i :: post ∧ ∀ j ∈ pre, j.t < 0) := by
  induction xs with
  | nil => simp [hit]
  | cons a rest ih =>
    rw [List.sorted_cons] at hs
    obtain ⟨ha, hrest⟩ := hs
    obtain ⟨ih1, ih2⟩ := ih hrest
    by_cases h : a.t < 0
    · have heq : hit (a :: rest) = hit rest := by simp [hit, h]
      constructor
      · rw [heq]
        simp [List.forall_mem_cons, h, ih1]
      · intro i hi
        rw [heq] at hi
        obtain ⟨h0, hmin, pre, post, hsplit, hpre⟩ := ih2 i hi
        refine ⟨h0, ?_, a :: pre, post, by rw [hsplit]; rfl, ?_⟩
        · intro j hj hj0
          rcases List.mem_cons.mp hj with hj | hj
          · subst hj
            exact absurd hj0 (not_le.mpr h)
          · exact hmin j hj hj0
        · intro j hj
          rcases List.mem_cons.mp hj with hj | hj
          · subst hj
            exact h
          · exact hpre j hj
    · have heq : hit (a :: rest) = some a := by simp [hit, h]
      push_neg at h
      constructor
      · rw [heq]
        constructor
        · intro habs
          exact absurd habs (by simp)
        · intro hall
          exact absurd (hall a (List.mem_cons_self a rest)) (not_lt.mpr h)
      · intro i hi
        rw [heq, Option.some_inj] at hi
        subst hi
        refine ⟨h, ?_, [], rest, rfl, by simp⟩
        intro j hj _
        rcases List.mem_cons.mp hj with hj | hj
        · subst hj
          exact le_refl _
        · exact ha j hj

/-- Witness for C2 at the example of the specification: sorted t-values −3, 2, 5, 7;
the hit is the intersection with t = 2 (object id 3). -/
theorem hit_witness :
    List.Sorted (fun a b : I => a.t ≤ b.t)
      [⟨-3, 2⟩, ⟨2, 3⟩, ⟨5, 0⟩, ⟨7, 1⟩]
    ∧ hit [⟨-3, 2⟩, ⟨2, 3⟩, ⟨5, 0⟩, ⟨7, 1⟩] = some ⟨2, 3⟩
    ∧ 0 ≤ (2:ℝ)
    ∧ (∀ j ∈ ([⟨-3, 2⟩, ⟨2, 3⟩, ⟨5, 0⟩, ⟨7, 1⟩] : List I), 0 ≤ j.t → (2:ℝ) ≤ j.t) := by
  have hs : List.Sorted (fun a b : I => a.t ≤ b.t)
      [⟨-3, 2⟩, ⟨2, 3⟩, ⟨5, 0⟩, ⟨7, 1⟩] := by
    norm_num [List.sorted_cons]
  have heval : hit [(⟨-3, 2⟩ : I), ⟨2, 3⟩, ⟨5, 0⟩, ⟨7, 1⟩] = some ⟨2, 3⟩ := by
    norm_num [hit]
  have hres := (hit_smallest_nonneg _ hs).2 ⟨2, 3⟩ heval
  exact ⟨hs, heval, hres.1, hres.2.1⟩

/-- A value of the float model that is not NaN carries a real. -/
theorem Fl.exists_val {a : Fl} (h : a ≠ Fl.nan) : ∃ r, a = Fl.val r := by
  cases a with
  | nan => exact absurd rfl h
  | val r => exact ⟨r, rfl⟩

/-- Inserting preserves the multiset of intersections. -/
theorem insertFI_perm (x : FI) (l : List FI) : (insertFI x l).Perm (x :: l) := by
  induction l with
  | nil => rfl
  | cons y ys ih =>
    by_cases h : cmpFI x y = Ordering.gt
    · rw [insertFI, if_pos h]
      exact (ih.cons y).trans (List.Perm.swap x y ys)
    · rw [insertFI, if_neg h]

/-- On non-NaN values the comparator orders by the underlying reals. -/
theorem cmpFI_gt_iff {a b : FI} {x y : ℝ} (ha : a.t = Fl.val x) (hb : b.t = Fl.val y) :
    (cmpFI a b = Ordering.gt ↔ y < x) := by
  rw [cmpFI, ha, hb, Fl.partialCmp]
  by_cases hxy : x < y
  · simp [hxy]
    linarith
  · by_cases hyx : y < x
    · simp [hxy, hyx]
    · simp [hxy, hyx]

/-- Inserting a non-NaN value into a NaN-free ascending list keeps it
ascending. -/
theorem insertFI_ascending (x : FI) (l : List FI) (hx : x.t ≠ Fl.nan)
    (hl : ∀ i ∈ l, i.t ≠ Fl.nan) (hs : AscendingByT l) :
    AscendingByT (insertFI x l) := by
  obtain ⟨xr, hxr⟩ := Fl.exists_val hx
  induction l with
  | nil => simp [insertFI, AscendingByT]
  | cons y ys ih =>
    obtain ⟨yr, hyr⟩ := Fl.exists_val (hl y (List.mem_cons_self y ys))
    have hys : ∀ i ∈ ys, i.t ≠ Fl.nan := fun i hi => hl i (List.mem_cons_of_mem y hi)
    rw [AscendingByT, List.pairwise_cons] at hs
    obtain ⟨hy, hsys⟩ := hs
    by_cases h : cmpFI x y = Ordering.gt
    · rw [insertFI, if_pos h]
      have hyx : yr < xr := (cmpFI_gt_iff hxr hyr).mp h
      rw [AscendingByT, List.pairwise_cons]
      constructor
      · intro z hz
        have hz2 := (insertFI_perm x ys).mem_iff.mp hz
        rcases List.mem_cons.mp hz2 with hz3 | hz3
        · subst hz3
          simp only [hyr, hxr, Fl.le]
          exact le_of_lt hyx
        · exact hy z hz3
      · exact ih hys hsys
    · rw [insertFI, if_neg h]
      have hxy : xr ≤ yr := not_lt.mp ((cmpFI_gt_iff hxr hyr).not.mp h)
      rw [AscendingByT, List.pairwise_cons]
      constructor
      · intro z hz
        rcases List.mem_cons.mp hz with hz3 | hz3
        · subst hz3
          simp only [hxr, hyr, Fl.le]
          exact hxy
        · obtain ⟨zr, hzr⟩ := Fl.exists_val (hys z hz3)
          have hyz : Fl.le y.t z.t := hy z hz3
          simp only [hyr, hzr, Fl.le] at hyz
          simp only [hxr, hzr, Fl.le]
          linarith
      · exact List.Pairwise.cons hy hsys

/-- C8 (amended): `Is::sort` always returns a permutation of its input,
and on NaN-free inputs the result is ascending by t. -/
theorem sort_perm_and_ascending_nan_free (xs : List FI) :
    (sortFI xs).Perm xs
    ∧ ((∀ i ∈ xs, i.t ≠ Fl.nan) → AscendingByT (sortFI xs)) := by
  induction xs with
  | nil => exact ⟨List.Perm.refl _, fun _ => List.Pairwise.nil⟩
  | cons x rest ih =>
    obtain ⟨ihp, ihs⟩ := ih
    constructor
    · exact (insertFI_perm x (sortFI rest)).trans (ihp.cons x)
    · intro hnf
      have hx : x.t ≠ Fl.nan := hnf x (List.mem_cons_self x rest)
      have hrest : ∀ i ∈ rest, i.t ≠ Fl.nan :=
        fun i hi => hnf i (List.mem_cons_of_mem x hi)
      have hsorted : ∀ i ∈ sortFI rest, i.t ≠ Fl.nan :=
        fun i hi => hrest i (ihp.mem_iff.mp hi)
      exact insertFI_ascending x (sortFI rest) hx hsorted (ihs hrest)

/-- Witness for C8 (amended) on a NaN-free two-element list. -/
theorem sort_witness :
    (∀ i ∈ ([⟨Fl.val 2, 0⟩, ⟨Fl.val 1, 1⟩] : List FI), i.t ≠ Fl.nan)
    ∧ (sortFI [⟨Fl.val 2, 0⟩, ⟨Fl.val 1, 1⟩]).Perm [⟨Fl.val 2, 0⟩, ⟨Fl.val 1, 1⟩]
    ∧ AscendingByT (sortFI [⟨Fl.val 2, 0⟩, ⟨Fl.val 1, 1⟩]) := by
  have hnf : ∀ i ∈ ([⟨Fl.val 2, 0⟩, ⟨Fl.val 1, 1⟩] : List FI), i.t ≠ Fl.nan := by
    intro i hi
    rcases List.mem_cons.mp hi with hi | hi
    · subst hi; simp
    · rcases List.mem_cons.mp hi with hi | hi
      · subst hi; simp
      · exact absurd hi (List.not_mem_nil i)
  have h := sort_perm_and_ascending_nan_free [⟨Fl.val 2, 0⟩, ⟨Fl.val 1, 1⟩]
  exact ⟨hnf, h.1, h.2 hnf⟩

/-- Counterexample to C8 as stated: with a NaN t-value present, the sort
leaves the list `[2, NaN, 1]` unchanged, and that list is not ascending
by t: 2 precedes 1. -/
theorem sort_nan_counterexample :
    sortFI [⟨Fl.val 2, 0⟩, ⟨Fl.nan, 1⟩, ⟨Fl.val 1, 2⟩]
      = [⟨Fl.val 2, 0⟩, ⟨Fl.nan, 1⟩, ⟨Fl.val 1, 2⟩]
    ∧ ¬ AscendingByT (sortFI [⟨Fl.val 2, 0⟩, ⟨Fl.nan, 1⟩, ⟨Fl.val 1, 2⟩]) := by
  have heval : sortFI [⟨Fl.val 2, 0⟩, ⟨Fl.nan, 1⟩, ⟨Fl.val 1, 2⟩]
      = [⟨Fl.val 2, 0⟩, ⟨Fl.nan, 1⟩, ⟨Fl.val 1, 2⟩] := by
    simp [sortFI, insertFI, cmpFI, Fl.partialCmp]
  refine ⟨heval, ?_⟩
  rw [heval, AscendingByT]
  intro habs
  rw [List.pairwise_cons] at habs
  have h21 := habs.1 ⟨Fl.val 1, 2⟩ (by simp)
  rw [Fl.le] at h21
  linarith

/-- C1: at the sphere of radius 4 centred at the origin and the ray from
(0,0,−10) along (0,0,1), the `local_intersect` of the code (which computes
`a = dot(del,del) − r`) returns t-values {12, 8}, while the formula of the
claim (`a = dot(del,del) − r²`) gives {14, 6}; only the latter are points
of the sphere — the t-values of the code do not satisfy `‖pos(t) − c‖² = r²`. -/
theorem sphere_intersect_radius_bug :
    (Sphere.localIntersect ⟨point 0 0 0, 4⟩ ⟨point 0 0 (-10), vector 0 0 1⟩
        = [12, 8])
    ∧ (Sphere.localIntersectRSquared ⟨point 0 0 0, 4⟩ ⟨point 0 0 (-10), vector 0 0 1⟩
        = [14, 6])
    ∧ (dot ((Ray.pos ⟨point 0 0 (-10), vector 0 0 1⟩ 14) - point 0 0 0)
           ((Ray.pos ⟨point 0 0 (-10), vector 0 0 1⟩ 14) - point 0 0 0) = 4 ^ 2)
    ∧ (dot ((Ray.pos ⟨point 0 0 (-10), vector 0 0 1⟩ 6) - point 0 0 0)
           ((Ray.pos ⟨point 0 0 (-10), vector 0 0 1⟩ 6) - point 0 0 0) = 4 ^ 2)
    ∧ (dot ((Ray.pos ⟨point 0 0 (-10), vector 0 0 1⟩ 12) - point 0 0 0)
           ((Ray.pos ⟨point 0 0 (-10), vector 0 0 1⟩ 12) - point 0 0 0) ≠ 4 ^ 2)
    ∧ (dot ((Ray.pos ⟨point 0 0 (-10), vector 0 0 1⟩ 8) - point 0 0 0)
           ((Ray.pos ⟨point 0 0 (-10), vector 0 0 1⟩ 8) - point 0 0 0) ≠ 4 ^ 2) := by
  have h4 : Real.sqrt 4 = 2 := by
    rw [show (4:ℝ) = 2 ^ 2 by norm_num]
    exact Real.sqrt_sq (by norm_num)
  have h16 : Real.sqrt 16 = 4 := by
    rw [show (16:ℝ) = 4 ^ 2 by norm_num]
    exact Real.sqrt_sq (by norm_num)
  refine ⟨?_, ?_, ?_, ?_, ?_, ?_⟩
  · norm_num [Sphere.localIntersect, dot, point, vector, tuple,
      Matrix.cons_val_zero, Matrix.cons_val_one, Matrix.head_cons,
      Matrix.cons_val_two, Matrix.cons_val_three, Matrix.vecTail, Matrix.vecHead]
    norm_num [show ((100:ℝ) - 4) = 96 by norm_num, h4]
  · norm_num [Sphere.localIntersectRSquared, dot, point, vector, tuple,
      Matrix.cons_val_zero, Matrix.cons_val_one, Matrix.head_cons,
      Matrix.cons_val_two, Matrix.cons_val_three, Matrix.vecTail, Matrix.vecHead]
    norm_num [h16]
  · norm_num [Ray.pos, dot, point, vector, tuple,
      Matrix.cons_val_zero, Matrix.cons_val_one, Matrix.head_cons,
      Matrix.cons_val_two, Matrix.cons_val_three, Matrix.vecTail, Matrix.vecHead]
  · norm_num [Ray.pos, dot, point, vector, tuple,
      Matrix.cons_val_zero, Matrix.cons_val_one, Matrix.head_cons,
      Matrix.cons_val_two, Matrix.cons_val_three, Matrix.vecTail, Matrix.vecHead]
  · norm_num [Ray.pos, dot, point, vector, tuple,
      Matrix.cons_val_zero, Matrix.cons_val_one, Matrix.head_cons,
      Matrix.cons_val_two, Matrix.cons_val_three, Matrix.vecTail, Matrix.vecHead]
  · norm_num [Ray.pos, dot, point, vector, tuple,
      Matrix.cons_val_zero, Matrix.cons_val_one, Matrix.head_cons,
      Matrix.cons_val_two, Matrix.cons_val_three, Matrix.vecTail, Matrix.vecHead]

/-- C7 (amended): for every TransformUnit whose matrix is non-singular,
`try_inverse` succeeds and applying the matrix and then its inverse gives
back the original vector exactly. -/
theorem tunit_matrix_roundtrip (u : TUnit) (v : Vec4) (h : u.matrix.det ≠ 0) :
    tryInverse u.matrix = some u.matrix⁻¹
    ∧ (u.matrix⁻¹).mulVec (u.matrix.mulVec v) = v := by
  refine ⟨by rw [tryInverse, if_neg h], ?_⟩
  rw [Matrix.mulVec_mulVec, Matrix.nonsing_inv_mul _ (isUnit_iff_ne_zero.mpr h),
    Matrix.one_mulVec]

/-- Witness for C7 (amended) at the unit `Translate(2,3,4)`, whose matrix
has determinant 1. -/
theorem tunit_matrix_roundtrip_witness :
    (TUnit.Translate 2 3 4).matrix.det ≠ 0
    ∧ (tryInverse (TUnit.Translate 2 3 4).matrix
        = some (TUnit.Translate 2 3 4).matrix⁻¹
      ∧ ((TUnit.Translate 2 3 4).matrix⁻¹).mulVec
          ((TUnit.Translate 2 3 4).matrix.mulVec (point 1 2 3)) = point 1 2 3) := by
  have h : (TUnit.Translate 2 3 4).matrix.det ≠ 0 := by
    norm_num [TUnit.matrix, translateMatrix, Matrix.det_succ_row_zero,
      Fin.sum_univ_succ, Matrix.submatrix_apply, Fin.succAbove]
  exact ⟨h, tunit_matrix_roundtrip (TUnit.Translate 2 3 4) (point 1 2 3) h⟩

/-- Counterexample to C7 as stated: the variant `Scale(0,0,0)` has a
singular matrix, so `try_inverse` fails and no inverse round-trip exists. -/
theorem tunit_scale_zero_not_invertible :
    tryInverse (TUnit.Scale 0 0 0).matrix = none := by
  have h : (TUnit.Scale 0 0 0).matrix.det = 0 := by
    norm_num [TUnit.matrix, scaleMatrix, Matrix.det_succ_row_zero,
      Fin.sum_univ_succ, Matrix.submatrix_apply, Fin.succAbove]
  rw [tryInverse, if_pos h]

/-- C6: `World::is_shadowed` fails unless there is exactly one light
source; with one light it casts a normalized ray from the point toward the
light and reports a shadow exactly when the t of the hit is below the distance
to the light by more than half an epsilon, and no shadow when there is no
hit or the hit is at or beyond that relaxed distance. -/
theorem is_shadowed_one_light (w : World) (p : Vec4) :
    (w.sources.length ≠ 1 → w.isShadowed p = none)
    ∧ ∀ src, w.sources = [src] →
        ((w.isShadowed p = some true ↔
          ∃ i, hit (w.intersect ⟨p, normalize (src.pos - p)⟩) = some i
            ∧ i.t < norm4 (src.pos - p) - EPSILON / 2)
        ∧ (w.isShadowed p = some false ↔
          hit (w.intersect ⟨p, normalize (src.pos - p)⟩) = none
            ∨ ∃ i, hit (w.intersect ⟨p, normalize (src.pos - p)⟩) = some i
                ∧ norm4 (src.pos - p) - EPSILON / 2 ≤ i.t)) := by
  constructor
  · intro h
    rcases hl : w.sources with _ | ⟨s, _ | ⟨s2, rest⟩⟩
    · simp [World.isShadowed, hl]
    · rw [hl] at h
      exact absurd rfl h
    · simp [World.isShadowed, hl]
  · intro src hsrc
    rcases hh : hit (w.intersect ⟨p, normalize (src.pos - p)⟩) with _ | i
    · constructor
      · simp [World.isShadowed, hsrc, hh]
      · simp [World.isShadowed, hsrc, hh]
    · by_cases hc : i.t - norm4 (src.pos - p) < -(EPSILON / 2)
      · have hv : w.isShadowed p = some true := by
          simp [World.isShadowed, hsrc, hh, hc]
        rw [hv]
        constructor
        · constructor
          · intro _
            exact ⟨i, rfl, by linarith⟩
          · intro _
            rfl
        · constructor
          · intro habs
            exact absurd habs (by simp)
          · intro habs
            rcases habs with habs | ⟨j, hj, hjt⟩
            · exact absurd habs (by simp)
            · rw [Option.some_inj] at hj
              subst hj
              linarith
      · have hv : w.isShadowed p = some false := by
          simp [World.isShadowed, hsrc, hh, hc]
        rw [hv]
        constructor
        · constructor
          · intro habs
            exact absurd habs (by simp)
          · intro ⟨j, hj, hjt⟩
            rw [Option.some_inj] at hj
            subst hj
            linarith
        · constructor
          · intro _
            exact Or.inr ⟨i, rfl, by linarith⟩
          · intro _
            rfl

/-- Witness for C6: a world with two lights makes `is_shadowed` fail, and
a one-light world with no objects reports no shadow. -/
theorem is_shadowed_witness :
    World.isShadowed
        ⟨[], [⟨point 0 0 0, Color.new 1 1 1⟩, ⟨point 0 0 0, Color.new 1 1 1⟩]⟩
        (point 0 0 0) = none
    ∧ World.isShadowed ⟨[], [⟨point 0 0 0, Color.new 1 1 1⟩]⟩ (point 0 0 0)
        = some false := by
  constructor
  · exact (is_shadowed_one_light _ _).1 (by simp)
  · have hnone : hit ((⟨[], [⟨point 0 0 0, Color.new 1 1 1⟩]⟩ : World).intersect
        ⟨point 0 0 0,
         normalize ((⟨point 0 0 0, Color.new 1 1 1⟩ : PointLight).pos - point 0 0 0)⟩)
        = none := by
      simp [World.intersect, sortI, hit]
    exact (((is_shadowed_one_light _ _).2 _ rfl).2).mpr (Or.inl hnone)

end RayTracer
